import Mathlib

/-!
Verification development for the kv-rdma-poc distributed KV cache.

The definitions below are a shallow embedding of the Rust sources:
`src/memory.rs` (memory pool and bump allocator), `src/protocol.rs`
(wire/data types, cache entries, protobuf conversions), `src/server.rs`
(cache index, PUT/GET/DELETE handlers and the gRPC service wrappers) and
`src/client.rs` (receive-buffer pool, pending-request table, GET/PUT flow).
The transport is the mock variant of `src/transport.rs` (the configuration
default, used by the integration tests): `submit_transfer` performs an
in-process byte copy from `src_handle.ptr + src_offset` to
`dst_descriptor.ptr + dst_offset`, and server and client live in one
address space.

Machine integers (`usize`/`u64`) are modelled as `Nat`; the one subtraction
that can underflow with realistic inputs (the free-block remainder
computation in `BumpAllocator::allocate`) is modelled with the explicit
two's-complement wrap `% 2^64` of a release build.  Byte buffers are
modelled as a length together with a contents function `Nat → Nat`.
-/

namespace KV

/-- Byte strings (`Vec<u8>` / `bytes`) as lists of byte values. -/
abbrev Bytes := List Nat

/-- The `usize`/`u64` modulus: arithmetic in the source is 64-bit. -/
def W : Nat := 2 ^ 64

/-- Rounding `x` up to a multiple of `a`.  The source computes
`(x + alignment - 1) & !(alignment - 1)`, which agrees with this rounded
division for the power-of-two alignments the program uses (4096 everywhere:
both `KvCacheServer::new` and `KvCacheClient::new` build their pools with
`alignment: 4096`). -/
def alignUp (x a : Nat) : Nat := (x + a - 1) / a * a

/-! ## protocol.rs: data-model types -/

/-- `MemoryRegionDescriptor` (protocol.rs): base pointer plus per-domain
`(DomainAddress, MemoryRegionRemoteKey)` pairs.  Domain addresses are byte
strings, remote keys are `u64`. -/
structure MemoryRegionDescriptor where
  ptr : Nat
  addr_rkey_list : List (Bytes × Nat)
  deriving DecidableEq, Repr

/-- `MemoryRegionHandle` (protocol.rs): local handle `{ ptr, len }`. -/
structure MemoryRegionHandle where
  ptr : Nat
  len : Nat
  deriving DecidableEq, Repr

/-- `ValueLocation` (protocol.rs). -/
structure ValueLocation where
  node_id : Nat
  mr_descriptor : MemoryRegionDescriptor
  offset : Nat
  length : Nat
  deriving DecidableEq, Repr

/-- `CacheEntry` (protocol.rs): the stored value bytes, the pool offset,
the TTL (0 means never expires) and the creation timestamp.  Timestamps are
whole seconds (`Instant::elapsed().as_secs()` in the source). -/
structure CacheEntry where
  data : Bytes
  offset : Nat
  ttl_seconds : Nat
  created_at : Nat
  deriving DecidableEq, Repr

/-- `CacheEntry::len`. -/
def CacheEntry.len (e : CacheEntry) : Nat := e.data.length

/-- `CacheEntry::is_expired`: false when `ttl_seconds = 0`, otherwise
`elapsed ≥ ttl_seconds` where `elapsed = now - created_at` (`Instant`
elapsed time is never negative, matching truncated `Nat` subtraction). -/
def CacheEntry.isExpired (e : CacheEntry) (now : Nat) : Bool :=
  if e.ttl_seconds = 0 then false
  else decide (e.ttl_seconds ≤ now - e.created_at)

/-! ## memory.rs: bump allocator -/

/-- `BumpAllocator` (memory.rs): bump offset, capacity, alignment and the
free list.  The source's `BTreeMap<usize, usize>` is modelled as an
association list kept sorted by offset (the map's iteration order). -/
structure BumpAllocator where
  offset : Nat
  capacity : Nat
  alignment : Nat
  free_list : List (Nat × Nat)
  deriving DecidableEq, Repr

/-- `BumpAllocator::new`. -/
def BumpAllocator.new (capacity alignment : Nat) : BumpAllocator :=
  ⟨0, capacity, alignment, []⟩

/-- The first-fit scan of `BumpAllocator::allocate`: the first free block
(in ascending offset order, the `BTreeMap` iteration order) whose size is
at least `size`. -/
def findFit : List (Nat × Nat) → Nat → Option (Nat × Nat)
  | [], _ => none
  | (o, bs) :: rest, size => if size ≤ bs then some (o, bs) else findFit rest size

/-- `BTreeMap::remove` on the sorted free list. -/
def flRemove : List (Nat × Nat) → Nat → List (Nat × Nat)
  | [], _ => []
  | (o', s') :: rest, o => if o' = o then rest else (o', s') :: flRemove rest o

/-- `BTreeMap::insert` on the sorted free list (replaces the value when the
key is already present). -/
def flInsert : List (Nat × Nat) → Nat → Nat → List (Nat × Nat)
  | [], o, s => [(o, s)]
  | (o', s') :: rest, o, s =>
    if o < o' then (o, s) :: (o', s') :: rest
    else if o = o' then (o, s) :: rest
    else (o', s') :: flInsert rest o s

/-- `BumpAllocator::allocate` (memory.rs lines 51-83).  First-fit over the
free list; when the chosen block is strictly larger than the request, the
remainder past the aligned end of the request is re-inserted provided it is
at least one alignment unit.  The remainder size
`block_size - (aligned_remainder - offset)` is a `usize` subtraction: in a
release build it wraps modulo `2^64` (a debug build panics), modelled here
by the explicit `% W`.  When no free block fits, bump from the aligned
high-water mark, failing when the pool capacity would be exceeded. -/
def BumpAllocator.allocate (a : BumpAllocator) (size : Nat) :
    Option (Nat × BumpAllocator) :=
  match findFit a.free_list size with
  | some (offset, block_size) =>
    let fl := flRemove a.free_list offset
    let fl :=
      if size < block_size then
        let remainder_offset := offset + size
        let aligned_remainder := alignUp remainder_offset a.alignment
        let remainder_size := (block_size + W - (aligned_remainder - offset)) % W
        if a.alignment ≤ remainder_size then flInsert fl aligned_remainder remainder_size
        else fl
      else fl
    some (offset, { a with free_list := fl })
  | none =>
    let aligned_offset := alignUp a.offset a.alignment
    if a.capacity < aligned_offset + size then none
    else some (aligned_offset, { a with offset := aligned_offset + size })

/-- `BumpAllocator::deallocate`: insert the block into the free list. -/
def BumpAllocator.deallocate (a : BumpAllocator) (offset size : Nat) : BumpAllocator :=
  { a with free_list := flInsert a.free_list offset size }

/-- `BumpAllocator::used`: the bump high-water mark. -/
def BumpAllocator.used (a : BumpAllocator) : Nat := a.offset

/-- `BumpAllocator::available`. -/
def BumpAllocator.available (a : BumpAllocator) : Nat :=
  a.capacity - a.offset + (a.free_list.map (·.2)).sum

/-! ## memory.rs: buffers and the memory pool -/

/-- The pool's backing byte buffer (`Vec<u8>` in the source), modelled as a
size plus a contents function. -/
structure Buffer where
  size : Nat
  data : Nat → Nat

/-- `MemoryPool::write` (bounds-checked; `Err` when
`offset + data.len() > buffer.len()`). -/
def Buffer.writeBytes (b : Buffer) (offset : Nat) (bytes : Bytes) : Option Buffer :=
  if b.size < offset + bytes.length then none
  else some { b with data :=
    (fun i =>
      if offset ≤ i ∧ i < offset + bytes.length then bytes.getD (i - offset) 0
      else b.data i) }

/-- `MemoryPool::read` (bounds-checked; `Err` when
`offset + len > buffer.len()`). -/
def Buffer.readBytes (b : Buffer) (offset len : Nat) : Option Bytes :=
  if b.size < offset + len then none
  else some ((List.range len).map fun i => b.data (offset + i))

/-- `PoolAllocation` (memory.rs): offset, size and the raw pointer
`buffer.as_ptr() + offset`. -/
structure PoolAllocation where
  offset : Nat
  size : Nat
  ptr : Nat
  deriving DecidableEq, Repr

/-- `MemoryPool` (memory.rs): backing buffer, its base address
(`buffer.as_ptr()`), the remote-access descriptor and the allocator. -/
structure MemoryPool where
  buffer : Buffer
  base : Nat
  descriptor : MemoryRegionDescriptor
  allocator : BumpAllocator

/-- `MemoryPool::new`: zeroed buffer of `size` bytes, handle and descriptor
at the buffer's address, remote key `i` for the `i`-th domain address, and
a fresh allocator. -/
def MemoryPool.new (size alignment base : Nat) (domain_addresses : List Bytes) :
    MemoryPool where
  buffer := { size := size, data := fun _ => 0 }
  base := base
  descriptor :=
    { ptr := base
      addr_rkey_list := domain_addresses.enum.map fun p => (p.2, p.1) }
  allocator := BumpAllocator.new size alignment

/-- `MemoryPool::handle`. -/
def MemoryPool.handle (p : MemoryPool) : MemoryRegionHandle :=
  ⟨p.base, p.buffer.size⟩

/-- `MemoryPool::allocate`: delegate to the bump allocator, packaging the
offset into a `PoolAllocation` (`Err "Memory pool exhausted"` on `None`). -/
def MemoryPool.allocate (p : MemoryPool) (size : Nat) :
    Option (PoolAllocation × MemoryPool) :=
  match p.allocator.allocate size with
  | none => none
  | some (offset, a') =>
    some (⟨offset, size, p.base + offset⟩, { p with allocator := a' })

/-- `MemoryPool::deallocate`. -/
def MemoryPool.deallocate (p : MemoryPool) (alloc : PoolAllocation) : MemoryPool :=
  { p with allocator := p.allocator.deallocate alloc.offset alloc.size }

/-- `MemoryPool::write`. -/
def MemoryPool.write (p : MemoryPool) (offset : Nat) (bytes : Bytes) :
    Option MemoryPool :=
  match p.buffer.writeBytes offset bytes with
  | none => none
  | some b' => some { p with buffer := b' }

/-- `MemoryPool::read`. -/
def MemoryPool.read (p : MemoryPool) (offset len : Nat) : Option Bytes :=
  p.buffer.readBytes offset len

/-- `PoolStats` (memory.rs). -/
structure PoolStats where
  total : Nat
  used : Nat
  available : Nat
  deriving DecidableEq, Repr

/-- `MemoryPool::stats`. -/
def MemoryPool.stats (p : MemoryPool) : PoolStats :=
  ⟨p.buffer.size, p.allocator.used, p.allocator.available⟩

/-! ## Protobuf messages (pb module) and the conversions of protocol.rs -/

/-- `pb::MemoryRegionDescriptor`: `ptr` plus `DomainAddressKey` entries. -/
structure PbMemoryRegionDescriptor where
  ptr : Nat
  addr_rkey_list : List (Bytes × Nat)
  deriving DecidableEq, Repr

/-- `pb::ValueLocation`: the descriptor is an optional message field. -/
structure PbValueLocation where
  node_id : Nat
  mr_descriptor : Option PbMemoryRegionDescriptor
  offset : Nat
  length : Nat
  deriving DecidableEq, Repr

/-- `From<&pb::MemoryRegionDescriptor> for MemoryRegionDescriptor`. -/
def pbToDescriptor (d : PbMemoryRegionDescriptor) : MemoryRegionDescriptor :=
  ⟨d.ptr, d.addr_rkey_list⟩

/-- `From<&MemoryRegionDescriptor> for pb::MemoryRegionDescriptor`. -/
def descriptorToPb (d : MemoryRegionDescriptor) : PbMemoryRegionDescriptor :=
  ⟨d.ptr, d.addr_rkey_list⟩

/-- `From<&pb::ValueLocation> for ValueLocation` (protocol.rs lines
169-182): a missing `mr_descriptor` is replaced by
`MemoryRegionDescriptor::new(0, vec![])`. -/
def pbToValueLocation (l : PbValueLocation) : ValueLocation :=
  { node_id := l.node_id
    mr_descriptor :=
      match l.mr_descriptor with
      | some d => pbToDescriptor d
      | none => ⟨0, []⟩
    offset := l.offset
    length := l.length }

/-- `From<&ValueLocation> for pb::ValueLocation`. -/
def valueLocationToPb (l : ValueLocation) : PbValueLocation :=
  ⟨l.node_id, some (descriptorToPb l.mr_descriptor), l.offset, l.length⟩

/-- `pb::GetRequest`. -/
structure PbGetRequest where
  key : Bytes
  response_location : Option PbValueLocation
  request_id : Nat
  deriving DecidableEq, Repr

/-- `pb::put_request::ValueSource`. -/
inductive PbValueSource where
  | inlineValue (v : Bytes)
  | rdmaLocation (loc : PbValueLocation)
  deriving DecidableEq, Repr

/-- `pb::PutRequest`. -/
structure PbPutRequest where
  key : Bytes
  value_source : Option PbValueSource
  ttl_seconds : Nat
  deriving DecidableEq, Repr

/-- `pb::GetResponse`. -/
structure GetResponse where
  success : Bool
  value_length : Nat
  error_message : String
  request_id : Nat
  deriving DecidableEq, Repr

/-- `pb::PutResponse`. -/
structure PutResponse where
  success : Bool
  error_message : String
  deriving DecidableEq, Repr

/-- `pb::DeleteResponse`. -/
structure DeleteResponse where
  success : Bool
  key_existed : Bool
  deriving DecidableEq, Repr

/-- The `tonic::Status` codes the handlers produce. -/
inductive StatusKind where
  | notFound
  | invalidArgument
  | unimplemented
  | internalFault
  deriving DecidableEq, Repr

/-- A `tonic::Status`: code plus message. -/
structure Status where
  kind : StatusKind
  message : String
  deriving DecidableEq, Repr

/-! ## server.rs: cache index and handlers -/

/-- `DashMap::get` on the cache index, modelled as an association list. -/
def cacheLookup : List (Bytes × CacheEntry) → Bytes → Option CacheEntry
  | [], _ => none
  | (k', e) :: rest, k => if k' = k then some e else cacheLookup rest k

/-- `DashMap::insert` on the cache index: replaces and returns any previous
entry for the key. -/
def cacheInsert : List (Bytes × CacheEntry) → Bytes → CacheEntry →
    List (Bytes × CacheEntry) × Option CacheEntry
  | [], k, e => ([(k, e)], none)
  | (k', e') :: rest, k, e =>
    if k' = k then ((k, e) :: rest, some e')
    else
      let (c', old) := cacheInsert rest k e
      ((k', e') :: c', old)

/-- `DashMap::remove` on the cache index: returns the removed entry (if
any) and the remaining index. -/
def cacheRemove : List (Bytes × CacheEntry) → Bytes →
    Option CacheEntry × List (Bytes × CacheEntry)
  | [], _ => (none, [])
  | (k', e') :: rest, k =>
    if k' = k then (some e', rest)
    else
      let (r, c') := cacheRemove rest k
      (r, (k', e') :: c')

/-- The server-side state owned by `KvCacheServer`: the memory pool and the
cache index (the client registry and config do not participate in the
claims' operations). -/
structure ServerState where
  pool : MemoryPool
  cache : List (Bytes × CacheEntry)

/-- Errors of `KvCacheServer::put_value` (`anyhow` messages). -/
inductive PutErr where
  | poolExhausted
  | writeBounds
  deriving DecidableEq, Repr

/-- The `anyhow` error message carried by each `PutErr`. -/
def PutErr.message : PutErr → String
  | .poolExhausted => "Memory pool exhausted"
  | .writeBounds => "Write exceeds pool bounds"

/-- `KvCacheServer::put_value` (server.rs lines 104-127): allocate, write
the value into the pool, insert a fresh `CacheEntry` (created now), and
deallocate the replaced entry's range when the key was already present.
On an error the mutations performed so far persist (the source
mutates the shared pool in place before the `?` propagates). -/
def ServerState.putValue (s : ServerState) (key value : Bytes) (ttl now : Nat) :
    Except PutErr Unit × ServerState :=
  match s.pool.allocate value.length with
  | none => (.error .poolExhausted, s)
  | some (alloc, pool₁) =>
    match pool₁.write alloc.offset value with
    | none => (.error .writeBounds, { s with pool := pool₁ })
    | some pool₂ =>
      let entry : CacheEntry := ⟨value, alloc.offset, ttl, now⟩
      match cacheInsert s.cache key entry with
      | (cache', some old_entry) =>
        (.ok (), { pool := pool₂.deallocate ⟨old_entry.offset, old_entry.len, 0⟩
                   cache := cache' })
      | (cache', none) => (.ok (), { pool := pool₂, cache := cache' })

/-- `KvCacheServer::delete_value` (server.rs lines 187-199): remove the
entry if present and deallocate its range; report whether it existed. -/
def ServerState.deleteValue (s : ServerState) (key : Bytes) : Bool × ServerState :=
  match cacheRemove s.cache key with
  | (some entry, cache') =>
    (true, { cache := cache', pool := s.pool.deallocate ⟨entry.offset, entry.len, 0⟩ })
  | (none, _) => (false, s)

/-! ## client.rs: client state, and the one-address-space world of the mock
transport -/

/-- `PendingAllocation` (client.rs): the reserved receive slot of one
in-flight GET. -/
structure PendingAllocation where
  allocation : PoolAllocation
  expected_length : Nat
  deriving DecidableEq, Repr

/-- `HashMap::insert` on the pending table. -/
def pendingInsert : List (Nat × PendingAllocation) → Nat → PendingAllocation →
    List (Nat × PendingAllocation)
  | [], rid, pa => [(rid, pa)]
  | (rid', pa') :: rest, rid, pa =>
    if rid' = rid then (rid, pa) :: rest
    else (rid', pa') :: pendingInsert rest rid pa

/-- `HashMap::remove` on the pending table: the removed entry (if any) and
the remaining table. -/
def pendingRemove : List (Nat × PendingAllocation) → Nat →
    Option PendingAllocation × List (Nat × PendingAllocation)
  | [], _ => (none, [])
  | (rid', pa') :: rest, rid =>
    if rid' = rid then (some pa', rest)
    else
      let (r, t') := pendingRemove rest rid
      (r, (rid', pa') :: t')

/-- The client-side state owned by `KvCacheClient`: connection flag (the
gRPC channel option), client id, receive pool, pending table and the
request-id counter. -/
structure ClientState where
  connected : Bool
  client_id : Nat
  pool : MemoryPool
  pending : List (Nat × PendingAllocation)
  request_counter : Nat

/-- `MAX_VALUE_SIZE` of `KvCacheClient::get`: the 1 MiB receive slot
reserved for every GET. -/
def MAX_VALUE_SIZE : Nat := 1024 * 1024

/-- The 64 KiB inline threshold of `KvCacheClient::put`. -/
def INLINE_THRESHOLD : Nat := 64 * 1024

/-- The world of the mock transport: server and client in one address
space, as in the integration tests. -/
structure World where
  server : ServerState
  client : ClientState

/-- Reading one byte of the shared address space: an address inside a
pool's registered range resolves to that pool's buffer; stray addresses
read as zero. -/
def World.readAddr (w : World) (addr : Nat) : Nat :=
  if w.server.pool.base ≤ addr ∧ addr < w.server.pool.base + w.server.pool.buffer.size then
    w.server.pool.buffer.data (addr - w.server.pool.base)
  else if w.client.pool.base ≤ addr ∧ addr < w.client.pool.base + w.client.pool.buffer.size then
    w.client.pool.buffer.data (addr - w.client.pool.base)
  else 0

/-- The portion of `std::ptr::copy_nonoverlapping(src, dst, len)` that
lands inside one buffer whose first byte sits at address `base`: positions
of the buffer that fall inside `[dst, dst + len)` receive the corresponding
source byte (read from the pre-copy world `w`), everything else is kept. -/
def copyIntoBuffer (w : World) (b : Buffer) (base src dst len : Nat) : Buffer :=
  { b with data :=
    (fun i =>
      if dst ≤ base + i ∧ base + i < dst + len then w.readAddr (src + (base + i - dst))
      else b.data i) }

/-- `MockTransport::submit_transfer`'s byte copy applied to the world: both
pools' buffers receive whatever part of `[dst, dst + len)` falls inside
their address ranges. -/
def World.mockCopy (w : World) (src dst len : Nat) : World where
  server := { w.server with pool := { w.server.pool with
    buffer := copyIntoBuffer w w.server.pool.buffer w.server.pool.base src dst len } }
  client := { w.client with pool := { w.client.pool with
    buffer := copyIntoBuffer w w.client.pool.buffer w.client.pool.base src dst len } }

/-- `KvCacheServer::get_and_transfer` (server.rs lines 130-184) with the
mock transport's `submit_transfer_async` inlined.  Look the key up
(`NotFound` when absent); on expiry remove the entry and answer `NotFound`
— the source performs no deallocation there.  Otherwise submit the
one-sided write of `entry.len()` bytes from `(pool.handle, entry.offset)`
to `(response_location.mr_descriptor.ptr, response_location.offset)` (the
mock checks the two raw pointers for null, then copies; on success it
reports `success = true` and `value_length = entry.len()`).  No comparison
of `response_location.length` against the entry length occurs anywhere. -/
def World.getAndTransfer (w : World) (key : Bytes) (loc : ValueLocation) (now : Nat) :
    Except Status Nat × World :=
  match cacheLookup w.server.cache key with
  | none => (.error ⟨.notFound, "Key not found"⟩, w)
  | some entry =>
    if entry.isExpired now then
      (.error ⟨.notFound, "Key expired"⟩,
       { w with server := { w.server with cache := (cacheRemove w.server.cache key).2 } })
    else
      let value_len := entry.len
      let src := w.server.pool.handle.ptr + entry.offset
      let dst := loc.mr_descriptor.ptr + loc.offset
      if src = 0 ∨ dst = 0 then
        (.error ⟨.internalFault, "Transfer failed: null pointer"⟩, w)
      else
        (.ok value_len, w.mockCopy src dst value_len)

/-- `KvCacheServiceImpl::get` (server.rs lines 209-252): a missing
`response_location` is rejected as `InvalidArgument` (a gRPC-level error);
otherwise the pb location is converted and `get_and_transfer` runs, its
outcome wrapped into a `GetResponse` (errors become `success = false` with
the status message). -/
def World.serviceGet (w : World) (req : PbGetRequest) (now : Nat) :
    Except Status GetResponse × World :=
  match req.response_location with
  | none => (.error ⟨.invalidArgument, "Missing response_location"⟩, w)
  | some pbLoc =>
    match w.getAndTransfer req.key (pbToValueLocation pbLoc) now with
    | (.ok value_length, w') =>
      (.ok ⟨true, value_length, "", req.request_id⟩, w')
    | (.error st, w') =>
      (.ok ⟨false, 0, st.message, req.request_id⟩, w')

/-- `KvCacheServiceImpl::put` (server.rs lines 254-284): a missing value
source is `InvalidArgument`, the RDMA-location source is `Unimplemented`,
and an inline value runs `put_value`, its outcome wrapped into a
`PutResponse`. -/
def World.servicePut (w : World) (req : PbPutRequest) (now : Nat) :
    Except Status PutResponse × World :=
  match req.value_source with
  | none => (.error ⟨.invalidArgument, "Missing value"⟩, w)
  | some (.rdmaLocation _) =>
    (.error ⟨.unimplemented, "RDMA read for PUT not yet implemented"⟩, w)
  | some (.inlineValue v) =>
    match w.server.putValue req.key v req.ttl_seconds now with
    | (.ok _, s') => (.ok ⟨true, ""⟩, { w with server := s' })
    | (.error e, s') => (.ok ⟨false, e.message⟩, { w with server := s' })

/-- `KvCacheServiceImpl::delete` (server.rs lines 286-300): always replies
`success = true` with the `delete_value` verdict. -/
def World.serviceDelete (w : World) (key : Bytes) : DeleteResponse × World :=
  match w.server.deleteValue key with
  | (existed, s') => (⟨true, existed⟩, { w with server := s' })

/-- The `anyhow` errors `KvCacheClient` surfaces. -/
inductive ClientErr where
  | notConnected
  | poolExhausted
  | transportError
  | rpc (st : Status)
  | pendingMissing
  | getFailed (message : String)
  | putFailed (message : String)
  | largeValueUnimplemented
  | readBounds
  deriving DecidableEq, Repr

/-- `KvCacheClient::get` (client.rs lines 156-229), with the RPC carried by
the world's mock-transport service.  Steps, in source order: connection
check; `request_id = counter.fetch_add(1)`; reserve a `MAX_VALUE_SIZE`
slot; build the response location from the pool descriptor and the slot;
record the pending allocation; send the GET.  `rpcOk = false` models the
control-plane send failing (`.await?` on the channel): the error
propagates with the pending entry still recorded and the slot still
allocated, exactly as in the source.  A gRPC-status reply (the `Err` of
the service) propagates through the same `?` with the same effect.  On a
reply, the pending entry is removed; a failure reply deallocates the slot
and surfaces the message; a success reply reads `value_length` bytes from
the slot (an out-of-bounds read propagates with the slot still allocated)
and then deallocates. -/
def World.clientGet (w : World) (key : Bytes) (now : Nat) (rpcOk : Bool) :
    Except ClientErr Bytes × World :=
  if ¬ w.client.connected then (.error .notConnected, w)
  else
    let request_id := w.client.request_counter
    let c₁ := { w.client with request_counter := request_id + 1 }
    match c₁.pool.allocate MAX_VALUE_SIZE with
    | none => (.error .poolExhausted, { w with client := c₁ })
    | some (alloc, pool₁) =>
      let response_location : ValueLocation :=
        ⟨c₁.client_id, pool₁.descriptor, alloc.offset, MAX_VALUE_SIZE⟩
      let c₂ := { c₁ with
        pool := pool₁
        pending := pendingInsert c₁.pending request_id ⟨alloc, MAX_VALUE_SIZE⟩ }
      let w₁ := { w with client := c₂ }
      if ¬ rpcOk then (.error .transportError, w₁)
      else
        match w₁.serviceGet ⟨key, some (valueLocationToPb response_location), request_id⟩ now with
        | (.error st, w₂) => (.error (.rpc st), w₂)
        | (.ok resp, w₂) =>
          match pendingRemove w₂.client.pending request_id with
          | (none, _) => (.error .pendingMissing, w₂)
          | (some pending_alloc, pending') =>
            let w₃ := { w₂ with client := { w₂.client with pending := pending' } }
            if ¬ resp.success then
              (.error (.getFailed resp.error_message),
               { w₃ with client := { w₃.client with
                  pool := w₃.client.pool.deallocate pending_alloc.allocation } })
            else
              match w₃.client.pool.read pending_alloc.allocation.offset resp.value_length with
              | none => (.error .readBounds, w₃)
              | some value =>
                (.ok value,
                 { w₃ with client := { w₃.client with
                    pool := w₃.client.pool.deallocate pending_alloc.allocation } })

/-- `KvCacheClient::put` (client.rs lines 232-262): values below the 64 KiB
threshold are sent inline; larger ones fail client-side (`NotImplemented`);
a failure reply surfaces the server's message. -/
def World.clientPut (w : World) (key value : Bytes) (ttl now : Nat) :
    Except ClientErr Unit × World :=
  if ¬ w.client.connected then (.error .notConnected, w)
  else if value.length < INLINE_THRESHOLD then
    match w.servicePut ⟨key, some (.inlineValue value), ttl⟩ now with
    | (.error st, w') => (.error (.rpc st), w')
    | (.ok resp, w') =>
      if resp.success then (.ok (), w')
      else (.error (.putFailed resp.error_message), w')
  else (.error .largeValueUnimplemented, w)

/-- A freshly started server and connected client (mirroring
`KvCacheServer::new` + `KvCacheClient::new` + `connect`): both pools are
built with alignment 4096, zeroed buffers and fresh allocators; the cache,
pending table and request counter start empty. -/
def mkWorld (server_size client_size server_base client_base client_id : Nat)
    (server_domains client_domains : List Bytes) : World where
  server :=
    { pool := MemoryPool.new server_size 4096 server_base server_domains
      cache := [] }
  client :=
    { connected := true
      client_id := client_id
      pool := MemoryPool.new client_size 4096 client_base client_domains
      pending := []
      request_counter := 0 }

/-- A script of calls against the bump allocator, for exercising
allocate/deallocate sequences. -/
inductive AllocOp where
  | alloc (size : Nat)
  | free (offset size : Nat)
  deriving DecidableEq, Repr

/-- Run an allocator script, collecting the result of every allocate
call. -/
def runAllocOps : BumpAllocator → List AllocOp → List (Option Nat) × BumpAllocator
  | a, [] => ([], a)
  | a, .alloc size :: rest =>
    match a.allocate size with
    | none =>
      let (rs, a') := runAllocOps a rest
      (none :: rs, a')
    | some (o, a₁) =>
      let (rs, a') := runAllocOps a₁ rest
      (some o :: rs, a')
  | a, .free o s :: rest => runAllocOps (a.deallocate o s) rest

/-- Two byte ranges `[o₁, o₁ + s₁)` and `[o₂, o₂ + s₂)` intersect. -/
def rangesOverlap (o₁ s₁ o₂ s₂ : Nat) : Prop :=
  o₁ < o₂ + s₂ ∧ o₂ < o₁ + s₁

instance (o₁ s₁ o₂ s₂ : Nat) : Decidable (rangesOverlap o₁ s₁ o₂ s₂) :=
  inferInstanceAs (Decidable (_ ∧ _))

/-- Whether a service GET outcome is the `InvalidArgument` rejection. -/
def isInvalidArgumentReply : Except Status GetResponse → Bool
  | .error st =>
    match st.kind with
    | .invalidArgument => true
    | _ => false
  | .ok _ => false

/-! ## Helper lemmas -/

/-- The removed entry of `cacheRemove` is the `cacheLookup` result. -/
theorem cacheRemove_fst (c : List (Bytes × CacheEntry)) (k : Bytes) :
    (cacheRemove c k).1 = cacheLookup c k := by
  induction c with
  | nil => rfl
  | cons p rest ih =>
    obtain ⟨k', e'⟩ := p
    by_cases h : k' = k <;> simp [cacheRemove, cacheLookup, h, ih]

/-- A function agreeing with `getD` on the index range reproduces the
list. -/
theorem range_map_eq_of_getD (v : Bytes) (f : Nat → Nat)
    (h : ∀ i < v.length, f i = v.getD i 0) :
    (List.range v.length).map f = v := by
  induction v generalizing f with
  | nil => rfl
  | cons x t ih =>
    have hrange : List.range (t.length + 1) = 0 :: (List.range t.length).map Nat.succ :=
      List.range_succ_eq_map t.length
    simp only [List.length_cons, hrange, List.map_cons, List.map_map]
    have h0 : f 0 = x := h 0 (Nat.succ_pos _)
    have ht : List.map (f ∘ Nat.succ) (List.range t.length) = t :=
      ih (f ∘ Nat.succ) fun i hi => by
        have := h (i + 1) (Nat.succ_lt_succ hi)
        simpa using this
    rw [h0, ht]

/-- `alignUp` never rounds down (at the program's alignment 4096). -/
theorem le_alignUp_4096 (x : Nat) : x ≤ alignUp x 4096 := by
  unfold alignUp
  omega

/-- Round-tripping a `ValueLocation` through its protobuf form. -/
theorem pbToValueLocation_roundtrip (l : ValueLocation) :
    pbToValueLocation (valueLocationToPb l) = l := rfl

/-- First-fit finds nothing when every free block is too small. -/
theorem findFit_eq_none (l : List (Nat × Nat)) (size : Nat)
    (h : ∀ p ∈ l, p.2 < size) : findFit l size = none := by
  induction l with
  | nil => rfl
  | cons p rest ih =>
    obtain ⟨o, bs⟩ := p
    have hp : bs < size := h (o, bs) (List.mem_cons_self _ _)
    simp only [findFit, if_neg (Nat.not_le_of_lt hp)]
    exact ih fun q hq => h q (List.mem_cons_of_mem _ hq)

deriving instance DecidableEq for Except

/-- Inversion for `MemoryPool.allocate`: a successful allocation changes
only the allocator, and records the requested size. -/
theorem MemoryPool.allocate_preserves (p : MemoryPool) (size : Nat)
    (alloc : PoolAllocation) (p' : MemoryPool)
    (h : p.allocate size = some (alloc, p')) :
    p'.buffer = p.buffer ∧ p'.base = p.base ∧ p'.descriptor = p.descriptor ∧
    alloc.size = size := by
  unfold MemoryPool.allocate at h
  cases ha : p.allocator.allocate size with
  | none => rw [ha] at h; cases h
  | some oa =>
    rw [ha] at h
    obtain ⟨o, a'⟩ := oa
    cases h
    exact ⟨rfl, rfl, rfl, rfl⟩

/-- `cacheInsert` appends when the key is absent. -/
theorem cacheInsert_of_lookup_none (c : List (Bytes × CacheEntry)) (k : Bytes)
    (e : CacheEntry) (h : cacheLookup c k = none) :
    cacheInsert c k e = (c ++ [(k, e)], none) := by
  induction c with
  | nil => rfl
  | cons p rest ih =>
    obtain ⟨k', e'⟩ := p
    by_cases hk : k' = k
    · simp [cacheLookup, hk] at h
    · simp only [cacheLookup, if_neg hk] at h
      simp [cacheInsert, hk, ih h]

/-- The success path of `get_and_transfer`: a present, unexpired entry is
transferred in full — `entry.len` bytes from the server pool at the
entry's offset to the location's address — and the reply carries
`entry.len`, independent of `loc.length`. -/
theorem getAndTransfer_ok (w : World) (key : Bytes) (loc : ValueLocation)
    (now : Nat) (entry : CacheEntry)
    (hlook : cacheLookup w.server.cache key = some entry)
    (hexp : entry.isExpired now = false)
    (hsrc : w.server.pool.base + entry.offset ≠ 0)
    (hdst : loc.mr_descriptor.ptr + loc.offset ≠ 0) :
    w.getAndTransfer key loc now =
      (.ok entry.len,
       w.mockCopy (w.server.pool.base + entry.offset)
         (loc.mr_descriptor.ptr + loc.offset) entry.len) := by
  unfold World.getAndTransfer
  rw [hlook]
  simp [hexp, MemoryPool.handle, hsrc, hdst]

/-- The expiry path of `get_and_transfer`: the entry is removed from the
index (nothing else changes — in particular no deallocation happens) and
the reply is the not-found status "Key expired". -/
theorem getAndTransfer_expired (w : World) (key : Bytes) (loc : ValueLocation)
    (now : Nat) (entry : CacheEntry)
    (hlook : cacheLookup w.server.cache key = some entry)
    (hexp : entry.isExpired now = true) :
    w.getAndTransfer key loc now =
      (.error ⟨.notFound, "Key expired"⟩,
       { w with server :=
         { w.server with cache := (cacheRemove w.server.cache key).2 } }) := by
  unfold World.getAndTransfer
  rw [hlook]
  simp [hexp]

/-- The service wrapper on the success path (stated over an explicit
server/client pair so it rewrites literal worlds). -/
theorem serviceGet_ok (s : ServerState) (c : ClientState) (key : Bytes)
    (loc : ValueLocation) (rid now : Nat) (entry : CacheEntry)
    (hlook : cacheLookup s.cache key = some entry)
    (hexp : entry.isExpired now = false)
    (hsrc : s.pool.base + entry.offset ≠ 0)
    (hdst : loc.mr_descriptor.ptr + loc.offset ≠ 0) :
    (World.mk s c).serviceGet ⟨key, some (valueLocationToPb loc), rid⟩ now =
      (.ok ⟨true, entry.len, "", rid⟩,
       (World.mk s c).mockCopy (s.pool.base + entry.offset)
         (loc.mr_descriptor.ptr + loc.offset) entry.len) := by
  unfold World.serviceGet
  simp only [pbToValueLocation_roundtrip]
  rw [getAndTransfer_ok (World.mk s c) key loc now entry hlook hexp hsrc hdst]

/-- The service wrapper on the expiry path. -/
theorem serviceGet_expired (s : ServerState) (c : ClientState) (key : Bytes)
    (loc : ValueLocation) (rid now : Nat) (entry : CacheEntry)
    (hlook : cacheLookup s.cache key = some entry)
    (hexp : entry.isExpired now = true) :
    (World.mk s c).serviceGet ⟨key, some (valueLocationToPb loc), rid⟩ now =
      (.ok ⟨false, 0, "Key expired", rid⟩,
       World.mk { s with cache := (cacheRemove s.cache key).2 } c) := by
  unfold World.serviceGet
  simp only [pbToValueLocation_roundtrip]
  rw [getAndTransfer_expired (World.mk s c) key loc now entry hlook hexp]

/-- End-to-end success of `KvCacheClient::get` against the mock-transport
world: when the client is idle and connected, the slot allocation succeeds,
the key maps to an unexpired entry whose bytes are stored in the server
pool, and the addresses involved are sound, the GET returns exactly the
entry's bytes (landed in the reserved slot and read back). -/
theorem clientGet_returns_entry (w : World) (key : Bytes) (entry : CacheEntry)
    (t1 : Nat) (alloc : PoolAllocation) (pool₁ : MemoryPool)
    (hconn : w.client.connected = true)
    (hpend : w.client.pending = [])
    (halloc : w.client.pool.allocate MAX_VALUE_SIZE = some (alloc, pool₁))
    (hlook : cacheLookup w.server.cache key = some entry)
    (hexp : entry.isExpired t1 = false)
    (hsrc : w.server.pool.base + entry.offset ≠ 0)
    (hdptr : w.client.pool.descriptor.ptr = w.client.pool.base)
    (hdst : w.client.pool.base + alloc.offset ≠ 0)
    (hfit : alloc.offset + entry.len ≤ w.client.pool.buffer.size)
    (hse : entry.offset + entry.len ≤ w.server.pool.buffer.size)
    (hstored : ∀ i < entry.len,
      w.server.pool.buffer.data (entry.offset + i) = entry.data.getD i 0) :
    (w.clientGet key t1 true).1 = .ok entry.data := by
  obtain ⟨hb, hba, hd, _⟩ := MemoryPool.allocate_preserves _ _ _ _ halloc
  have hdst' : pool₁.descriptor.ptr + alloc.offset ≠ 0 := by
    rw [hd, hdptr]; exact hdst
  unfold World.clientGet
  rw [if_neg (fun h => h hconn)]
  simp only [halloc]
  rw [if_neg (not_not_intro trivial)]
  rw [serviceGet_ok w.server _ key _ _ t1 entry hlook hexp hsrc hdst']
  simp only [World.mockCopy, copyIntoBuffer, hpend, pendingInsert, pendingRemove,
    MemoryPool.read, Buffer.readBytes, hb]
  simp only [eq_self_iff_true, if_true, not_true, if_false]
  rw [if_neg (Nat.not_lt.mpr hfit)]
  refine congrArg Except.ok (range_map_eq_of_getD entry.data _ ?_)
  intro i hi
  simp only [copyIntoBuffer, World.readAddr, hb, hba, hd, hdptr]
  have hc1 : w.client.pool.base + alloc.offset ≤ w.client.pool.base + (alloc.offset + i) := by
    omega
  have hc2 : w.client.pool.base + (alloc.offset + i) <
      w.client.pool.base + alloc.offset + entry.len := by
    have : i < entry.len := hi
    omega
  rw [if_pos ⟨hc1, hc2⟩]
  have hidx : w.server.pool.base + entry.offset +
      (w.client.pool.base + (alloc.offset + i) - (w.client.pool.base + alloc.offset)) =
      w.server.pool.base + (entry.offset + i) := by
    omega
  rw [hidx]
  have hs1 : w.server.pool.base ≤ w.server.pool.base + (entry.offset + i) := by omega
  have hs2 : w.server.pool.base + (entry.offset + i) <
      w.server.pool.base + w.server.pool.buffer.size := by
    have : i < entry.len := hi
    omega
  rw [if_pos ⟨hs1, hs2⟩]
  have hidx2 : w.server.pool.base + (entry.offset + i) - w.server.pool.base = entry.offset + i := by
    omega
  rw [hidx2]
  exact hstored i hi

/-- End-to-end expiry of `KvCacheClient::get`: when the entry has expired,
the GET surfaces the failure reply carrying the not-found "Key expired"
message. -/
theorem clientGet_expired_err (w : World) (key : Bytes) (entry : CacheEntry)
    (t1 : Nat) (alloc : PoolAllocation) (pool₁ : MemoryPool)
    (hconn : w.client.connected = true)
    (hpend : w.client.pending = [])
    (halloc : w.client.pool.allocate MAX_VALUE_SIZE = some (alloc, pool₁))
    (hlook : cacheLookup w.server.cache key = some entry)
    (hexp : entry.isExpired t1 = true) :
    (w.clientGet key t1 true).1 = .error (.getFailed "Key expired") := by
  unfold World.clientGet
  rw [if_neg (fun h => h hconn)]
  simp only [halloc]
  rw [if_neg (not_not_intro trivial)]
  rw [serviceGet_expired w.server _ key _ _ t1 entry hlook hexp]
  simp only [hpend, pendingInsert, pendingRemove]
  simp

/-- A successful inline PUT of a fresh key on a server whose free list is
empty: the value is bump-allocated at the aligned high-water mark, written
into the pool, and appended to the index; nothing else changes. -/
theorem clientPut_fresh (w : World) (key value : Bytes) (ttl now : Nat)
    (hconn : w.client.connected = true)
    (hsmall : value.length < INLINE_THRESHOLD)
    (hlook : cacheLookup w.server.cache key = none)
    (hfree : w.server.pool.allocator.free_list = [])
    (halign : w.server.pool.allocator.alignment = 4096)
    (hcap : alignUp w.server.pool.allocator.offset 4096 + value.length ≤
      w.server.pool.allocator.capacity)
    (hwrite : alignUp w.server.pool.allocator.offset 4096 + value.length ≤
      w.server.pool.buffer.size) :
    w.clientPut key value ttl now =
      (.ok (), World.mk
        { pool :=
            { buffer :=
                { size := w.server.pool.buffer.size
                  data :=
                    (fun i =>
                      if alignUp w.server.pool.allocator.offset 4096 ≤ i ∧
                          i < alignUp w.server.pool.allocator.offset 4096 + value.length then
                        value.getD (i - alignUp w.server.pool.allocator.offset 4096) 0
                      else w.server.pool.buffer.data i) }
              base := w.server.pool.base
              descriptor := w.server.pool.descriptor
              allocator :=
                { offset := alignUp w.server.pool.allocator.offset 4096 + value.length
                  capacity := w.server.pool.allocator.capacity
                  alignment := 4096
                  free_list := [] } }
          cache := w.server.cache ++
            [(key, ⟨value, alignUp w.server.pool.allocator.offset 4096, ttl, now⟩)] }
        w.client) := by
  have hno : findFit w.server.pool.allocator.free_list value.length = none := by
    rw [hfree]; rfl
  have halloc : w.server.pool.allocator.allocate value.length =
      some (alignUp w.server.pool.allocator.offset 4096,
        { offset := alignUp w.server.pool.allocator.offset 4096 + value.length
          capacity := w.server.pool.allocator.capacity
          alignment := 4096
          free_list := [] }) := by
    unfold BumpAllocator.allocate
    rw [hno, halign, if_neg (Nat.not_lt.mpr hcap), hfree]
  have hpa : w.server.pool.allocate value.length =
      some (⟨alignUp w.server.pool.allocator.offset 4096, value.length,
        w.server.pool.base + alignUp w.server.pool.allocator.offset 4096⟩,
        { w.server.pool with allocator :=
          { offset := alignUp w.server.pool.allocator.offset 4096 + value.length
            capacity := w.server.pool.allocator.capacity
            alignment := 4096
            free_list := [] } }) := by
    unfold MemoryPool.allocate
    rw [halloc]
  unfold World.clientPut
  rw [if_neg (fun h => h hconn), if_pos hsmall]
  unfold World.servicePut ServerState.putValue
  simp only [hpa, MemoryPool.write, Buffer.writeBytes]
  rw [if_neg (Nat.not_lt.mpr hwrite)]
  simp only [cacheInsert_of_lookup_none _ _ _ hlook]
  rw [if_pos trivial]

/-- A successful inline PUT that replaces the single existing entry: the
new value is bump-allocated (the free list is still empty when the
allocation happens), written, the index entry is replaced, and only then
is the old entry's range pushed onto the free list. -/
theorem clientPut_replace (w : World) (key value : Bytes) (e1 : CacheEntry)
    (ttl now : Nat)
    (hconn : w.client.connected = true)
    (hsmall : value.length < INLINE_THRESHOLD)
    (hcache : w.server.cache = [(key, e1)])
    (hfree : w.server.pool.allocator.free_list = [])
    (halign : w.server.pool.allocator.alignment = 4096)
    (hcap : alignUp w.server.pool.allocator.offset 4096 + value.length ≤
      w.server.pool.allocator.capacity)
    (hwrite : alignUp w.server.pool.allocator.offset 4096 + value.length ≤
      w.server.pool.buffer.size) :
    w.clientPut key value ttl now =
      (.ok (), World.mk
        { pool :=
            { buffer :=
                { size := w.server.pool.buffer.size
                  data :=
                    (fun i =>
                      if alignUp w.server.pool.allocator.offset 4096 ≤ i ∧
                          i < alignUp w.server.pool.allocator.offset 4096 + value.length then
                        value.getD (i - alignUp w.server.pool.allocator.offset 4096) 0
                      else w.server.pool.buffer.data i) }
              base := w.server.pool.base
              descriptor := w.server.pool.descriptor
              allocator :=
                { offset := alignUp w.server.pool.allocator.offset 4096 + value.length
                  capacity := w.server.pool.allocator.capacity
                  alignment := 4096
                  free_list := [(e1.offset, e1.len)] } }
          cache := [(key, ⟨value, alignUp w.server.pool.allocator.offset 4096, ttl, now⟩)] }
        w.client) := by
  have hno : findFit w.server.pool.allocator.free_list value.length = none := by
    rw [hfree]; rfl
  have halloc : w.server.pool.allocator.allocate value.length =
      some (alignUp w.server.pool.allocator.offset 4096,
        { offset := alignUp w.server.pool.allocator.offset 4096 + value.length
          capacity := w.server.pool.allocator.capacity
          alignment := 4096
          free_list := [] }) := by
    unfold BumpAllocator.allocate
    rw [hno, halign, if_neg (Nat.not_lt.mpr hcap), hfree]
  have hpa : w.server.pool.allocate value.length =
      some (⟨alignUp w.server.pool.allocator.offset 4096, value.length,
        w.server.pool.base + alignUp w.server.pool.allocator.offset 4096⟩,
        { w.server.pool with allocator :=
          { offset := alignUp w.server.pool.allocator.offset 4096 + value.length
            capacity := w.server.pool.allocator.capacity
            alignment := 4096
            free_list := [] } }) := by
    unfold MemoryPool.allocate
    rw [halloc]
  unfold World.clientPut
  rw [if_neg (fun h => h hconn), if_pos hsmall]
  unfold World.servicePut ServerState.putValue
  simp only [hpa, MemoryPool.write, Buffer.writeBytes]
  rw [if_neg (Nat.not_lt.mpr hwrite)]
  rw [hcache]
  simp only [cacheInsert, if_pos rfl]
  rw [if_pos trivial]
  rfl

/-- Allocation from a freshly created pool: the first block sits at
offset 0. -/
theorem allocate_new_pool (cap base : Nat) (doms : List Bytes) (size : Nat)
    (h : size ≤ cap) :
    (MemoryPool.new cap 4096 base doms).allocate size =
      some (⟨0, size, base + 0⟩,
        { buffer := { size := cap, data := fun _ => 0 }
          base := base
          descriptor := ⟨base, doms.enum.map fun p => (p.2, p.1)⟩
          allocator := ⟨0 + size, cap, 4096, []⟩ }) := by
  unfold MemoryPool.new MemoryPool.allocate BumpAllocator.allocate BumpAllocator.new
  simp only [findFit]
  rw [show alignUp 0 4096 = 0 from rfl]
  rw [if_neg (by omega)]

/-! ## Claim theorems -/

/-- C4: the claimed allocator invariants fail.  In a 4096-byte pool with
alignment 4096, the script allocate(100) = 0; deallocate(0, 100);
allocate(50) = 0; allocate(50) makes the last call return offset 4096,
violating `offset + size ≤ pool size` (4096 + 50 > 4096): splitting the
(0, 100) free block for the 50-byte request computes the remainder size
`100 - (4096 - 0)`, a `usize` underflow that wraps to a huge bogus free
block at 4096 (a debug build panics on the subtraction).  In a 16384-byte
pool, the second script additionally makes the simultaneously live
allocations (4096, 5000) and (8192, 50) overlap. -/
theorem C4_allocate_breaks_bounds_and_overlap :
    (runAllocOps (BumpAllocator.new 4096 4096)
        [.alloc 100, .free 0 100, .alloc 50, .alloc 50]).1
      = [some 0, some 0, some 4096] ∧
    ¬ (4096 + 50 ≤ 4096) ∧
    (runAllocOps (BumpAllocator.new 16384 4096)
        [.alloc 100, .alloc 100, .alloc 100, .free 0 100, .free 8192 100,
         .alloc 50, .alloc 5000, .alloc 50]).1
      = [some 0, some 4096, some 8192, some 0, some 4096, some 8192] ∧
    rangesOverlap 4096 5000 8192 50 := by decide

/-- C3: evaluating the expiry path of `get_and_transfer`: after
PUT(key = 01, 6-byte value, ttl 1 s) at t = 0, a GET at t = 2 removes the
entry and answers the not-found status "Key expired", but leaves the
allocator exactly as it was (bump mark 6, empty free list): the entry's
pool range (offset 0, 6 bytes) is never deallocated, so the normal
reclamation the claim describes does not happen and the range leaks. -/
theorem C3_expiry_skips_deallocate :
    ((((mkWorld 16384 2097152 100000 4000000 7 [] []).clientPut
        [1] [1, 2, 3, 4, 5, 6] 1 0).2.getAndTransfer
        [1] ⟨0, ⟨777, []⟩, 0, 5⟩ 2).1
      = .error ⟨.notFound, "Key expired"⟩) ∧
    ((((mkWorld 16384 2097152 100000 4000000 7 [] []).clientPut
        [1] [1, 2, 3, 4, 5, 6] 1 0).2.getAndTransfer
        [1] ⟨0, ⟨777, []⟩, 0, 5⟩ 2).2.server.cache = []) ∧
    ((((mkWorld 16384 2097152 100000 4000000 7 [] []).clientPut
        [1] [1, 2, 3, 4, 5, 6] 1 0).2.getAndTransfer
        [1] ⟨0, ⟨777, []⟩, 0, 5⟩ 2).2.server.pool.allocator
      = ⟨6, 16384, 4096, []⟩) := by decide

/-- C5: evaluating `KvCacheClient::get` when the control-plane RPC fails
(the `.await?` on the channel errors before a reply): the call returns the
transport error, but the pending table still holds the entry for
request id 0 and the 1 MiB receive slot is still allocated (bump mark
advanced, empty free list) — the entry is never reaped and the allocation
is never released. -/
theorem C5_transport_error_leaks_pending :
    ((((mkWorld 16384 2097152 100000 4000000 7 [] []).clientPut
        [1, 2] [10, 20, 30] 0 0).2.clientGet [1, 2] 0 false).1
      = .error .transportError) ∧
    ((((mkWorld 16384 2097152 100000 4000000 7 [] []).clientPut
        [1, 2] [10, 20, 30] 0 0).2.clientGet [1, 2] 0 false).2.client.pending
      = [(0, ⟨⟨0, MAX_VALUE_SIZE, 4000000⟩, MAX_VALUE_SIZE⟩)]) ∧
    ((((mkWorld 16384 2097152 100000 4000000 7 [] []).clientPut
        [1, 2] [10, 20, 30] 0 0).2.clientGet [1, 2] 0 false).2.client.pool.allocator
      = ⟨MAX_VALUE_SIZE, 2097152, 4096, []⟩) := by decide

/-- C1 (counterexample): a GET whose key is present and not expired
(entry data length 10) with `response_location.length = 5 < 10` is not
failed: `get_and_transfer` replies success with value length 10 and issues
the 10-byte transfer, so no `BufferTooSmall` validation exists. -/
theorem C1_counterexample_no_buffer_too_small :
    ((5 : Nat) < 10) ∧
    (cacheLookup (((mkWorld 16384 2097152 100000 4000000 7 [] []).clientPut
        [1] [0, 1, 2, 3, 4, 5, 6, 7, 8, 9] 0 0).2.server.cache) [1]
      = some ⟨[0, 1, 2, 3, 4, 5, 6, 7, 8, 9], 0, 0, 0⟩) ∧
    ((((mkWorld 16384 2097152 100000 4000000 7 [] []).clientPut
        [1] [0, 1, 2, 3, 4, 5, 6, 7, 8, 9] 0 0).2.getAndTransfer
        [1] ⟨0, ⟨777, []⟩, 0, 5⟩ 0).1 = .ok 10) := by decide

/-- C6 (counterexample): PUT(key = 01, [9]) then PUT(key = 01, [8]) on a
fresh 16384-byte server pool: both succeed, but the pool's reported used
rises from 1 to 4097 — the second PUT allocates the replacement before the
old block is freed, and `used` is the bump high-water mark, which never
decreases — refuting "used after the second PUT is no larger than after
the first". -/
theorem C6_counterexample_used_grows :
    (((mkWorld 16384 2097152 100000 4000000 7 [] []).clientPut [1] [9] 0 0).1
      = .ok ()) ∧
    ((((mkWorld 16384 2097152 100000 4000000 7 [] []).clientPut [1] [9] 0 0).2.clientPut
        [1] [8] 0 0).1 = .ok ()) ∧
    (((mkWorld 16384 2097152 100000 4000000 7 [] []).clientPut
        [1] [9] 0 0).2.server.pool.stats.used = 1) ∧
    ((((mkWorld 16384 2097152 100000 4000000 7 [] []).clientPut [1] [9] 0 0).2.clientPut
        [1] [8] 0 0).2.server.pool.stats.used = 4097) ∧
    ¬ (4097 ≤ 1) := by decide

/-- Complete PUT-then-GET behaviour on a fresh world, covering both the
fresh and the expired outcome: the PUT succeeds, and the subsequent GET
at time `t1` returns the stored bytes unless
`ttl ≠ 0 ∧ ttl ≤ t1 - t0` (the source's expiry condition), in which case
it surfaces the "Key expired" failure. -/
theorem putGet_ttl_spec (sCap cCap sBase cBase cid t0 t1 ttl : Nat)
    (sd cd : List Bytes) (key value : Bytes)
    (hsz : value.length < INLINE_THRESHOLD)
    (hscap : value.length ≤ sCap)
    (hccap : MAX_VALUE_SIZE ≤ cCap)
    (hsb : sBase ≠ 0) (hcb : cBase ≠ 0) :
    ((mkWorld sCap cCap sBase cBase cid sd cd).clientPut key value ttl t0).1 = .ok () ∧
    (((mkWorld sCap cCap sBase cBase cid sd cd).clientPut key value ttl t0).2.clientGet
        key t1 true).1 =
      (if ttl ≠ 0 ∧ ttl ≤ t1 - t0 then .error (.getFailed "Key expired")
       else .ok value) := by
  have hid : INLINE_THRESHOLD = 65536 := rfl
  have hmv : MAX_VALUE_SIZE = 1048576 := rfl
  have ha0 : alignUp 0 4096 = 0 := rfl
  have hput := clientPut_fresh (mkWorld sCap cCap sBase cBase cid sd cd) key value ttl t0
    rfl hsz rfl rfl rfl
    (by show alignUp 0 4096 + value.length ≤ sCap; rw [ha0]; omega)
    (by show alignUp 0 4096 + value.length ≤ sCap; rw [ha0]; omega)
  refine ⟨by rw [hput], ?_⟩
  rw [hput]
  by_cases hc : ttl ≠ 0 ∧ ttl ≤ t1 - t0
  · rw [if_pos hc]
    refine clientGet_expired_err _ key
      ⟨value, alignUp (mkWorld sCap cCap sBase cBase cid sd cd).server.pool.allocator.offset 4096,
        ttl, t0⟩ t1
      ⟨0, MAX_VALUE_SIZE, cBase + 0⟩ _ rfl rfl
      (allocate_new_pool cCap cBase cd MAX_VALUE_SIZE (by omega))
      (by simp [cacheLookup]) ?_
    simp only [CacheEntry.isExpired]
    rw [if_neg hc.1]
    simp [hc.2]
  · rw [if_neg hc]
    have hnoexp : ttl = 0 ∨ t1 - t0 < ttl := by
      by_cases h0 : ttl = 0
      · exact Or.inl h0
      · refine Or.inr ?_
        rcases Nat.lt_or_ge (t1 - t0) ttl with h | h
        · exact h
        · exact absurd ⟨h0, h⟩ hc
    refine clientGet_returns_entry _ key
      ⟨value, alignUp (mkWorld sCap cCap sBase cBase cid sd cd).server.pool.allocator.offset 4096,
        ttl, t0⟩ t1
      ⟨0, MAX_VALUE_SIZE, cBase + 0⟩ _ rfl rfl
      (allocate_new_pool cCap cBase cd MAX_VALUE_SIZE (by omega))
      (by simp [cacheLookup]) ?_ ?_ rfl ?_ ?_ ?_ ?_
    · rcases hnoexp with h | h
      · simp [CacheEntry.isExpired, h]
      · simp only [CacheEntry.isExpired]
        split
        · rfl
        · simp only [decide_eq_false_iff_not]
          omega
    · show sBase + alignUp 0 4096 ≠ 0
      rw [ha0]; omega
    · show cBase + 0 ≠ 0
      omega
    · show 0 + value.length ≤ cCap
      omega
    · show alignUp 0 4096 + value.length ≤ sCap
      rw [ha0]; omega
    · intro i hi
      show (if alignUp 0 4096 ≤ alignUp 0 4096 + i ∧
          alignUp 0 4096 + i < alignUp 0 4096 + value.length then
          value.getD (alignUp 0 4096 + i - alignUp 0 4096) 0
        else (0 : Nat)) = value.getD i 0
      rw [ha0]
      have hi' : i < value.length := hi
      rw [if_pos ⟨by omega, by omega⟩]
      simp

/-- C2: for every key, value and ttl, starting a fresh server and
connected client (capacities sufficient: the value fits the server pool,
the client buffer holds the 1 MiB receive slot, and the pools sit at
non-null addresses), a successful PUT followed by a GET of the same key
with no intervening operation and no expiry (`ttl = 0` or fewer than `ttl`
seconds elapsed) succeeds and returns exactly the stored value bytes, read
out of the client's reserved receive slot. -/
theorem C2_put_then_get (sCap cCap sBase cBase cid t0 t1 ttl : Nat)
    (sd cd : List Bytes) (key value : Bytes)
    (hsz : value.length < INLINE_THRESHOLD)
    (hscap : value.length ≤ sCap)
    (hccap : MAX_VALUE_SIZE ≤ cCap)
    (hsb : sBase ≠ 0) (hcb : cBase ≠ 0)
    (hnoexp : ttl = 0 ∨ t1 - t0 < ttl) :
    ((mkWorld sCap cCap sBase cBase cid sd cd).clientPut key value ttl t0).1 = .ok () ∧
    (((mkWorld sCap cCap sBase cBase cid sd cd).clientPut key value ttl t0).2.clientGet
        key t1 true).1 = .ok value := by
  obtain ⟨h1, h2⟩ := putGet_ttl_spec sCap cCap sBase cBase cid t0 t1 ttl sd cd key value
    hsz hscap hccap hsb hcb
  exact ⟨h1, by rw [h2, if_neg (by omega)]⟩

/-- C2 (witness): a concrete put/get round trip. -/
theorem C2_put_then_get_witness :
    ((mkWorld 16384 2097152 100000 4000000 7 [] []).clientPut
      [1, 2] [10, 20, 30] 0 0).1 = .ok () ∧
    (((mkWorld 16384 2097152 100000 4000000 7 [] []).clientPut
      [1, 2] [10, 20, 30] 0 0).2.clientGet [1, 2] 5 true).1 = .ok [10, 20, 30] :=
  C2_put_then_get 16384 2097152 100000 4000000 7 0 5 0 [] [] [1, 2] [10, 20, 30]
    (by decide) (by decide) (by decide) (by decide) (by decide) (Or.inl rfl)

/-- C7: TTL semantics end to end.  After a successful PUT at `t0` with ttl
`t`, a GET at `t1` returns the value when fewer than `t` seconds have
elapsed, and the "Key expired" not-found failure when `t ≠ 0` and at least
`t` seconds have elapsed (in particular whenever more than `t` seconds have
elapsed); an entry stored with `ttl = 0` never expires — the GET returns
the value at every later time. -/
theorem C7_ttl_expiry (sCap cCap sBase cBase cid t0 t1 ttl : Nat)
    (sd cd : List Bytes) (key value : Bytes)
    (hsz : value.length < INLINE_THRESHOLD)
    (hscap : value.length ≤ sCap)
    (hccap : MAX_VALUE_SIZE ≤ cCap)
    (hsb : sBase ≠ 0) (hcb : cBase ≠ 0) :
    ((mkWorld sCap cCap sBase cBase cid sd cd).clientPut key value ttl t0).1 = .ok () ∧
    (((mkWorld sCap cCap sBase cBase cid sd cd).clientPut key value ttl t0).2.clientGet
        key t1 true).1 =
      (if ttl ≠ 0 ∧ ttl ≤ t1 - t0 then .error (.getFailed "Key expired")
       else .ok value) :=
  putGet_ttl_spec sCap cCap sBase cBase cid t0 t1 ttl sd cd key value
    hsz hscap hccap hsb hcb

/-- C7 (witness): both branches at concrete inputs — ttl 1 expired at
t = 2, ttl 1 fresh at t = 0 (and ttl 0 never expires, at t = 1000). -/
theorem C7_ttl_expiry_witness :
    ((((mkWorld 16384 2097152 100000 4000000 7 [] []).clientPut
        [1] [5, 6] 1 0).2.clientGet [1] 2 true).1
      = .error (.getFailed "Key expired")) ∧
    ((((mkWorld 16384 2097152 100000 4000000 7 [] []).clientPut
        [1] [5, 6] 1 0).2.clientGet [1] 0 true).1 = .ok [5, 6]) ∧
    ((((mkWorld 16384 2097152 100000 4000000 7 [] []).clientPut
        [1] [5, 6] 0 0).2.clientGet [1] 1000 true).1 = .ok [5, 6]) := by
  refine ⟨?_, ?_, ?_⟩
  · have h := (C7_ttl_expiry 16384 2097152 100000 4000000 7 0 2 1 [] [] [1] [5, 6]
      (by decide) (by decide) (by decide) (by decide) (by decide)).2
    rw [h]
    decide
  · have h := (C7_ttl_expiry 16384 2097152 100000 4000000 7 0 0 1 [] [] [1] [5, 6]
      (by decide) (by decide) (by decide) (by decide) (by decide)).2
    rw [h]
    decide
  · have h := (C7_ttl_expiry 16384 2097152 100000 4000000 7 0 1000 0 [] [] [1] [5, 6]
      (by decide) (by decide) (by decide) (by decide) (by decide)).2
    rw [h]
    decide

/-- C6 (amended): for every key and values v1, v2 (fitting the pools),
PUT(key, v1) then PUT(key, v2) on a fresh world both succeed and
GET(key) returns v2; the pool's reported used after the second PUT is at
least — not at most — the value after the first: `used` is the bump
high-water mark, the replacement value is allocated before the old block
is pushed to the free list, and the mark never decreases. -/
theorem C6_second_put_overwrites (sCap cCap sBase cBase cid t0 t1 t2 : Nat)
    (sd cd : List Bytes) (key v1 v2 : Bytes)
    (h1 : v1.length < INLINE_THRESHOLD)
    (h2 : v2.length < INLINE_THRESHOLD)
    (hs1 : v1.length ≤ sCap)
    (hs2 : alignUp v1.length 4096 + v2.length ≤ sCap)
    (hccap : MAX_VALUE_SIZE ≤ cCap)
    (hsb : sBase ≠ 0) (hcb : cBase ≠ 0) :
    ((mkWorld sCap cCap sBase cBase cid sd cd).clientPut key v1 0 t0).1 = .ok () ∧
    (((mkWorld sCap cCap sBase cBase cid sd cd).clientPut key v1 0 t0).2.clientPut
      key v2 0 t1).1 = .ok () ∧
    ((((mkWorld sCap cCap sBase cBase cid sd cd).clientPut key v1 0 t0).2.clientPut
      key v2 0 t1).2.clientGet key t2 true).1 = .ok v2 ∧
    ((mkWorld sCap cCap sBase cBase cid sd cd).clientPut
      key v1 0 t0).2.server.pool.stats.used ≤
    (((mkWorld sCap cCap sBase cBase cid sd cd).clientPut key v1 0 t0).2.clientPut
      key v2 0 t1).2.server.pool.stats.used := by
  have hid : INLINE_THRESHOLD = 65536 := rfl
  have hmv : MAX_VALUE_SIZE = 1048576 := rfl
  have ha0 : alignUp 0 4096 = 0 := rfl
  have hput1 := clientPut_fresh (mkWorld sCap cCap sBase cBase cid sd cd) key v1 0 t0
    rfl h1 rfl rfl rfl
    (by show alignUp 0 4096 + v1.length ≤ sCap; rw [ha0]; omega)
    (by show alignUp 0 4096 + v1.length ≤ sCap; rw [ha0]; omega)
  rcases hsplit : (mkWorld sCap cCap sBase cBase cid sd cd).clientPut key v1 0 t0
    with ⟨r1, w1⟩
  have h12 := hsplit.symm.trans hput1
  injection h12 with hr1 hw1
  have hconn1 : w1.client.connected = true := by rw [hw1]; rfl
  have hpend1 : w1.client.pending = [] := by rw [hw1]; rfl
  have hcpool : w1.client.pool = MemoryPool.new cCap 4096 cBase cd := by rw [hw1]; rfl
  have hcache1 : w1.server.cache = [(key,
      ⟨v1, alignUp (mkWorld sCap cCap sBase cBase cid sd cd).server.pool.allocator.offset 4096,
        0, t0⟩)] := by
    rw [hw1]; rfl
  have hfree1 : w1.server.pool.allocator.free_list = [] := by rw [hw1]
  have halign1 : w1.server.pool.allocator.alignment = 4096 := by rw [hw1]
  have hoff1 : w1.server.pool.allocator.offset = v1.length := by
    rw [hw1]
    show alignUp (mkWorld sCap cCap sBase cBase cid sd cd).server.pool.allocator.offset
        4096 + v1.length = v1.length
    rw [show (mkWorld sCap cCap sBase cBase cid sd cd).server.pool.allocator.offset = 0
      from rfl, ha0]
    omega
  have hcap1 : w1.server.pool.allocator.capacity = sCap := by rw [hw1]; rfl
  have hbase1 : w1.server.pool.base = sBase := by rw [hw1]; rfl
  have hbsz1 : w1.server.pool.buffer.size = sCap := by rw [hw1]; rfl
  have hput2 := clientPut_replace w1 key v2
    ⟨v1, alignUp (mkWorld sCap cCap sBase cBase cid sd cd).server.pool.allocator.offset 4096,
      0, t0⟩ 0 t1 hconn1 h2 hcache1 hfree1 halign1
    (by rw [hoff1, hcap1]; exact hs2)
    (by rw [hoff1, hbsz1]; exact hs2)
  refine ⟨hr1, ?_, ?_, ?_⟩
  · show (w1.clientPut key v2 0 t1).1 = .ok ()
    rw [hput2]
  · show ((w1.clientPut key v2 0 t1).2.clientGet key t2 true).1 = .ok v2
    rw [hput2]
    have halloc2 : w1.client.pool.allocate MAX_VALUE_SIZE =
        some (⟨0, MAX_VALUE_SIZE, cBase + 0⟩,
          { buffer := { size := cCap, data := fun _ => 0 }
            base := cBase
            descriptor := ⟨cBase, cd.enum.map fun p => (p.2, p.1)⟩
            allocator := ⟨0 + MAX_VALUE_SIZE, cCap, 4096, []⟩ }) := by
      rw [hcpool]
      exact allocate_new_pool cCap cBase cd MAX_VALUE_SIZE (by omega)
    refine clientGet_returns_entry _ key
      ⟨v2, alignUp w1.server.pool.allocator.offset 4096, 0, t1⟩ t2
      ⟨0, MAX_VALUE_SIZE, cBase + 0⟩ _ hconn1 hpend1 halloc2
      (by simp [cacheLookup]) (by simp [CacheEntry.isExpired]) ?_ ?_ ?_ ?_ ?_ ?_
    · show w1.server.pool.base + alignUp w1.server.pool.allocator.offset 4096 ≠ 0
      rw [hbase1]
      omega
    · show w1.client.pool.descriptor.ptr = w1.client.pool.base
      rw [hcpool]
      rfl
    · show w1.client.pool.base + 0 ≠ 0
      rw [hcpool]
      show cBase + 0 ≠ 0
      omega
    · show 0 + v2.length ≤ w1.client.pool.buffer.size
      rw [hcpool]
      show 0 + v2.length ≤ cCap
      omega
    · show alignUp w1.server.pool.allocator.offset 4096 + v2.length ≤
        w1.server.pool.buffer.size
      rw [hoff1, hbsz1]
      exact hs2
    · intro i hi
      have hi' : i < v2.length := hi
      show (if alignUp w1.server.pool.allocator.offset 4096 ≤
            alignUp w1.server.pool.allocator.offset 4096 + i ∧
          alignUp w1.server.pool.allocator.offset 4096 + i <
            alignUp w1.server.pool.allocator.offset 4096 + v2.length then
          v2.getD (alignUp w1.server.pool.allocator.offset 4096 + i -
            alignUp w1.server.pool.allocator.offset 4096) 0
        else w1.server.pool.buffer.data
          (alignUp w1.server.pool.allocator.offset 4096 + i)) = v2.getD i 0
      rw [if_pos ⟨by omega, by omega⟩]
      have hsub : alignUp w1.server.pool.allocator.offset 4096 + i -
          alignUp w1.server.pool.allocator.offset 4096 = i := by omega
      rw [hsub]
  · show w1.server.pool.stats.used ≤
      (w1.clientPut key v2 0 t1).2.server.pool.stats.used
    rw [hput2]
    show w1.server.pool.allocator.offset ≤
      alignUp w1.server.pool.allocator.offset 4096 + v2.length
    have := le_alignUp_4096 w1.server.pool.allocator.offset
    omega

/-- C6 (amended, witness): the concrete run of the counterexample world,
where used rises from 1 to 4097 while the GET still returns the second
value. -/
theorem C6_second_put_overwrites_witness :
    ((mkWorld 16384 2097152 100000 4000000 7 [] []).clientPut [1] [9] 0 0).1
      = .ok () ∧
    (((mkWorld 16384 2097152 100000 4000000 7 [] []).clientPut [1] [9] 0 0).2.clientPut
      [1] [8] 0 1).1 = .ok () ∧
    ((((mkWorld 16384 2097152 100000 4000000 7 [] []).clientPut [1] [9] 0 0).2.clientPut
      [1] [8] 0 1).2.clientGet [1] 2 true).1 = .ok [8] ∧
    ((mkWorld 16384 2097152 100000 4000000 7 [] []).clientPut
      [1] [9] 0 0).2.server.pool.stats.used ≤
    (((mkWorld 16384 2097152 100000 4000000 7 [] []).clientPut [1] [9] 0 0).2.clientPut
      [1] [8] 0 1).2.server.pool.stats.used :=
  C6_second_put_overwrites 16384 2097152 100000 4000000 7 0 1 2 [] [] [1] [9] [8]
    (by decide) (by decide) (by decide) (by decide) (by decide) (by decide) (by decide)

/-- C1 (amended): the server performs no length validation.  For every GET
whose key is present and not expired (and whose raw source and destination
addresses pass the mock's null check), `get_and_transfer` issues the
transfer of `entry.data_length` bytes to the client's slot and replies
success with that length, entirely independent of
`response_location.length`; no `BufferTooSmall` failure exists. -/
theorem C1_no_length_validation (w : World) (key : Bytes) (loc : ValueLocation)
    (now : Nat) (entry : CacheEntry)
    (hlook : cacheLookup w.server.cache key = some entry)
    (hexp : entry.isExpired now = false)
    (hsrc : w.server.pool.base + entry.offset ≠ 0)
    (hdst : loc.mr_descriptor.ptr + loc.offset ≠ 0) :
    w.getAndTransfer key loc now =
      (.ok entry.len,
       w.mockCopy (w.server.pool.base + entry.offset)
         (loc.mr_descriptor.ptr + loc.offset) entry.len) :=
  getAndTransfer_ok w key loc now entry hlook hexp hsrc hdst

/-- C1 (witness): the amended theorem applied to the counterexample world,
where the slot length 5 is smaller than the entry length 10. -/
theorem C1_no_length_validation_witness :
    (((mkWorld 16384 2097152 100000 4000000 7 [] []).clientPut
        [1] [0, 1, 2, 3, 4, 5, 6, 7, 8, 9] 0 0).2.getAndTransfer
        [1] ⟨0, ⟨777, []⟩, 0, 5⟩ 0) =
      (.ok 10,
       (((mkWorld 16384 2097152 100000 4000000 7 [] []).clientPut
          [1] [0, 1, 2, 3, 4, 5, 6, 7, 8, 9] 0 0).2.mockCopy 100000 777 10)) :=
  C1_no_length_validation _ _ _ _ ⟨[0, 1, 2, 3, 4, 5, 6, 7, 8, 9], 0, 0, 0⟩
    (by decide) (by decide) (by decide) (by decide)

/-- C8: DELETE never fails: the reply always carries `success = true`;
`key_existed` is exactly whether the key was in the index; when present
the entry is removed and its pool range `(offset, data_length)` is
deallocated, and when absent the whole state is left unchanged. -/
theorem C8_delete_never_fails (w : World) (key : Bytes) :
    (w.serviceDelete key).1.success = true ∧
    (w.serviceDelete key).1.key_existed = (cacheLookup w.server.cache key).isSome ∧
    (w.serviceDelete key).2 =
      (match cacheLookup w.server.cache key with
       | some e =>
         { w with server :=
             { cache := (cacheRemove w.server.cache key).2
               pool := w.server.pool.deallocate ⟨e.offset, e.len, 0⟩ } }
       | none => w) := by
  have h1 := cacheRemove_fst w.server.cache key
  unfold World.serviceDelete ServerState.deleteValue
  rcases hrem : cacheRemove w.server.cache key with ⟨r, c'⟩
  rw [hrem] at h1
  cases r with
  | none => simp [← h1, hrem]
  | some e => simp [← h1, hrem]

/-- C9: when no free block can hold the value and the remaining bump space
cannot either, the allocator reports exhaustion, the PUT reply is
`success = false` with the "Memory pool exhausted" message, and the entire
server state — pool and cache index alike — is returned unchanged, so
every previously stored entry is still retrievable. -/
theorem C9_put_exhaustion_is_atomic (w : World) (key value : Bytes) (ttl now : Nat)
    (hfree : ∀ p ∈ w.server.pool.allocator.free_list, p.2 < value.length)
    (hbump : w.server.pool.allocator.capacity <
      alignUp w.server.pool.allocator.offset w.server.pool.allocator.alignment
        + value.length) :
    w.server.pool.allocate value.length = none ∧
    w.servicePut ⟨key, some (.inlineValue value), ttl⟩ now =
      (.ok ⟨false, "Memory pool exhausted"⟩, w) := by
  have hnone : w.server.pool.allocator.allocate value.length = none := by
    unfold BumpAllocator.allocate
    rw [findFit_eq_none _ _ hfree]
    simp [hbump]
  have hpool : w.server.pool.allocate value.length = none := by
    unfold MemoryPool.allocate
    rw [hnone]
  refine ⟨hpool, ?_⟩
  unfold World.servicePut ServerState.putValue
  simp only [hpool]
  rfl

/-- C9 (witness): a value of one byte against a zero-capacity pool. -/
theorem C9_put_exhaustion_is_atomic_witness :
    (∀ p ∈ (mkWorld 0 50 1000 2000 1 [] []).server.pool.allocator.free_list,
      p.2 < ([5] : Bytes).length) ∧
    ((mkWorld 0 50 1000 2000 1 [] []).server.pool.allocate ([5] : Bytes).length = none ∧
     (mkWorld 0 50 1000 2000 1 [] []).servicePut ⟨[1], some (.inlineValue [5]), 0⟩ 0 =
       (.ok ⟨false, "Memory pool exhausted"⟩, mkWorld 0 50 1000 2000 1 [] [])) :=
  ⟨by decide, C9_put_exhaustion_is_atomic _ [1] [5] 0 0 (by decide) (by decide)⟩

/-- C10: a GET whose `response_location` is present but carries no
`mr_descriptor` is not rejected as `InvalidArgument`: the conversion
substitutes the descriptor with base pointer 0 and an empty
address/remote-key list, and the service proceeds to the lookup and
transfer of `get_and_transfer` on the converted location. -/
theorem C10_missing_descriptor_proceeds (w : World) (pbLoc : PbValueLocation)
    (key : Bytes) (rid now : Nat) (h : pbLoc.mr_descriptor = none) :
    pbToValueLocation pbLoc = ⟨pbLoc.node_id, ⟨0, []⟩, pbLoc.offset, pbLoc.length⟩ ∧
    isInvalidArgumentReply (w.serviceGet ⟨key, some pbLoc, rid⟩ now).1 = false ∧
    w.serviceGet ⟨key, some pbLoc, rid⟩ now =
      (match w.getAndTransfer key (pbToValueLocation pbLoc) now with
       | (.ok value_length, w') => (.ok ⟨true, value_length, "", rid⟩, w')
       | (.error st, w') => (.ok ⟨false, 0, st.message, rid⟩, w')) := by
  refine ⟨?_, ?_, ?_⟩
  · unfold pbToValueLocation
    rw [h]
  · unfold World.serviceGet
    rcases hg : w.getAndTransfer key (pbToValueLocation pbLoc) now with ⟨r, w'⟩
    cases r <;> simp [hg, isInvalidArgumentReply]
  · unfold World.serviceGet
    rcases hg : w.getAndTransfer key (pbToValueLocation pbLoc) now with ⟨r, w'⟩
    cases r <;> simp [hg]

/-- C10 (witness): a concrete request with a present location and an
absent descriptor. -/
theorem C10_missing_descriptor_proceeds_witness :
    pbToValueLocation ⟨5, none, 40, 50⟩ = ⟨5, ⟨0, []⟩, 40, 50⟩ ∧
    isInvalidArgumentReply
      ((mkWorld 16384 2097152 100000 4000000 7 [] []).serviceGet
        ⟨[1], some ⟨5, none, 40, 50⟩, 3⟩ 0).1 = false ∧
    (mkWorld 16384 2097152 100000 4000000 7 [] []).serviceGet
        ⟨[1], some ⟨5, none, 40, 50⟩, 3⟩ 0 =
      (match (mkWorld 16384 2097152 100000 4000000 7 [] []).getAndTransfer
          [1] (pbToValueLocation ⟨5, none, 40, 50⟩) 0 with
       | (.ok value_length, w') => (.ok ⟨true, value_length, "", 3⟩, w')
       | (.error st, w') => (.ok ⟨false, 0, st.message, 3⟩, w')) :=
  C10_missing_descriptor_proceeds _ _ [1] 3 0 rfl

end KV
